import Mathlib

/-!
Verification development for the MetaBlackjack service.

The repository ships only its HTTP-level test scripts; the engine itself
(cards, hand evaluator, game state machine, wallet ledger, history
aggregator, wallet authentication) is specified by the design document.
All engine definitions below are therefore modelled from the spec, each
marked `Modelled from the spec:`.
-/

namespace MetaBlackjack

/-- Modelled from the spec: card ranks A, 2–10, J, Q, K (§3 Data Model).
Suits never influence values or legality, so they are omitted from the model. -/
inductive Rank where
  | ace | two | three | four | five | six | seven | eight | nine | ten
  | jack | queen | king
deriving DecidableEq

/-- Modelled from the spec: a card contributes 1 or 11 (ace), 2–10 (number),
10 (face); each ace is first treated as 11 (§4.1). -/
def rankBase : Rank → Nat
  | .ace => 11
  | .two => 2
  | .three => 3
  | .four => 4
  | .five => 5
  | .six => 6
  | .seven => 7
  | .eight => 8
  | .nine => 9
  | .ten => 10
  | .jack => 10
  | .queen => 10
  | .king => 10

/-- The value a rank contributes once demoted: an ace counted as 1. -/
def rankHard : Rank → Nat
  | .ace => 1
  | r => rankBase r

/-- Sum of the card ranks with every ace counted as 11. -/
def baseTotal : List Rank → Nat
  | [] => 0
  | c :: rest => rankBase c + baseTotal rest

/-- Sum of the card ranks with every ace counted as 1. -/
def hardTotal : List Rank → Nat
  | [] => 0
  | c :: rest => rankHard c + hardTotal rest

/-- Number of aces in a hand. -/
def aceCount : List Rank → Nat
  | [] => 0
  | c :: rest => (if c = Rank.ace then 1 else 0) + aceCount rest

/-- Modelled from the spec: while total > 21 and at least one ace counted as
11 remains, demote one ace to 1, repeating (§4.1).  Returns the final total
together with the number of aces still counted as 11. -/
def demoteAces (total : Nat) : Nat → Nat × Nat
  | 0 => (total, 0)
  | a + 1 => if 21 < total then demoteAces (total - 10) a else (total, a + 1)

/-- Modelled from the spec: `value(hand) -> (total, isSoft)` sums ranks
treating each ace first as 11, demotes aces while the total exceeds 21, and
reports the hand soft iff an ace is still counted as 11 (§4.1). -/
def handValue (cards : List Rank) : Nat × Bool :=
  let p := demoteAces (baseTotal cards) (aceCount cards)
  (p.1, decide (0 < p.2))

/-- Modelled from the spec: `isBlackjack(hand)`: exactly 2 cards and total
equal to 21 (§4.1). -/
def isBlackjackB (cards : List Rank) : Bool :=
  cards.length == 2 && (handValue cards).1 == 21

/-- Modelled from the spec: `isBust(hand)`: total > 21 (§4.1). -/
def isBustB (cards : List Rank) : Bool :=
  decide (21 < (handValue cards).1)

/-- Modelled from the spec: a Hand's status (§3 Data Model). -/
inductive HandStatus where
  | active | stood | busted | blackjack | surrendered
deriving DecidableEq

/-- Modelled from the spec: a Hand's resolution once settled (§3 Data Model). -/
inductive Resolution where
  | win | lose | push | blackjackPayout
deriving DecidableEq

/-- Modelled from the spec: a Hand is an ordered card sequence with a bet and
a status (§3).  `fromSplit` records that the hand was produced by a split,
since re-splitting a split hand is disallowed by default (§4.2). -/
structure Hand where
  cards : List Rank
  bet : Nat
  status : HandStatus
  fromSplit : Bool
deriving DecidableEq

/-- Modelled from the spec: `settle()` for one player hand (§4.2): player
busted → LOSE, credit 0; natural blackjack not matched by a dealer blackjack
→ BLACKJACK_PAYOUT, credit 3:2 of the bet plus the stake (5/2 × bet); both
blackjack or equal totals → PUSH, credit 1× bet; dealer bust or player total
higher → WIN, credit 2× bet; dealer higher → LOSE, credit 0. -/
def settleHand (h : Hand) (dealer : List Rank) : Resolution × Nat :=
  if isBustB h.cards then (.lose, 0)
  else if isBlackjackB h.cards && !isBlackjackB dealer then
    (.blackjackPayout, h.bet * 5 / 2)
  else if isBlackjackB h.cards && isBlackjackB dealer then (.push, h.bet)
  else if isBustB dealer then (.win, 2 * h.bet)
  else if (handValue dealer).1 < (handValue h.cards).1 then (.win, 2 * h.bet)
  else if (handValue h.cards).1 = (handValue dealer).1 then (.push, h.bet)
  else (.lose, 0)

/-- Modelled from the spec: settlement runs over every player hand not
already SURRENDERED (§4.2); surrendered hands were paid bet/2 at surrender
time and are skipped here. -/
def settleGame (hands : List Hand) (dealer : List Rank) : List (Resolution × Nat) :=
  (hands.filter (fun h => h.status != .surrendered)).map (fun h => settleHand h dealer)

/-- Modelled from the spec: transaction kinds (§3 Data Model). -/
inductive TxKind where
  | bet | payout | refund | adminAdjust | purchase
deriving DecidableEq

/-- Modelled from the spec: an immutable ledger record with signed amount and
resulting balance (§3 Data Model). -/
structure Transaction where
  userId : String
  amount : Int
  kind : TxKind
  relatedGameId : Option String
  resultingBalance : Int
deriving DecidableEq

/-- Modelled from the spec: one user's slice of the Wallet Ledger — the
current balance plus the append-only transaction log, newest first (§4.3). -/
structure UserLedger where
  userId : String
  balance : Int
  txs : List Transaction
deriving DecidableEq

/-- Modelled from the spec: the Wallet Ledger's error kind (§4.3, §7). -/
inductive LedgerErr where
  | insufficientBalance
deriving DecidableEq

/-- Modelled from the spec: `debit` rejects with `InsufficientBalanceError`,
before any transaction is recorded, whenever applying it would make the
balance negative; otherwise it appends exactly one Transaction (§4.3). -/
def ledgerDebit (st : UserLedger) (amount : Nat) (kind : TxKind)
    (gid : Option String) : Except LedgerErr UserLedger :=
  if st.balance < (amount : Int) then .error .insufficientBalance
  else
    let newBal := st.balance - (amount : Int)
    .ok { st with balance := newBal,
                  txs := { userId := st.userId, amount := -(amount : Int),
                           kind := kind, relatedGameId := gid,
                           resultingBalance := newBal } :: st.txs }

/-- Modelled from the spec: `credit` appends exactly one Transaction and
raises the balance (§4.3). -/
def ledgerCredit (st : UserLedger) (amount : Nat) (kind : TxKind)
    (gid : Option String) : UserLedger :=
  let newBal := st.balance + (amount : Int)
  { st with balance := newBal,
            txs := { userId := st.userId, amount := (amount : Int),
                     kind := kind, relatedGameId := gid,
                     resultingBalance := newBal } :: st.txs }

/-- Modelled from the spec: `adjust` applies a signed admin amount; a
negative adjustment is still bounded by the current balance (§4.3). -/
def ledgerAdjust (st : UserLedger) (amount : Int) : UserLedger :=
  let applied := max amount (-st.balance)
  let newBal := st.balance + applied
  { st with balance := newBal,
            txs := { userId := st.userId, amount := applied,
                     kind := .adminAdjust, relatedGameId := none,
                     resultingBalance := newBal } :: st.txs }

/-- The ledger operations exposed by the Wallet Ledger (§4.3). -/
inductive LedgerOp where
  | debit (amount : Nat) (kind : TxKind) (gid : Option String)
  | credit (amount : Nat) (kind : TxKind) (gid : Option String)
  | adjust (amount : Int)

/-- Dispatch one ledger operation (§4.3). -/
def ledgerApply (st : UserLedger) : LedgerOp → Except LedgerErr UserLedger
  | .debit a k g => ledgerDebit st a k g
  | .credit a k g => .ok (ledgerCredit st a k g)
  | .adjust a => .ok (ledgerAdjust st a)

/-- Modelled from the spec: the game lifecycle states (§4.2); SURRENDERED and
BUSTED_OUT short-circuit to SETTLED as hand-level sub-resolutions. -/
inductive GameState where
  | playing | dealerTurn | settled
deriving DecidableEq

/-- Modelled from the spec: a Game holds the deck, the dealer's hand, one or
more player hands, its state and the insurance side-bet (§3 Data Model).
The first dealer card is the visible upcard. -/
structure Game where
  gameId : String
  userId : String
  deck : List Rank
  dealerCards : List Rank
  hands : List Hand
  state : GameState
  insuranceTaken : Bool
  insuranceBet : Nat
deriving DecidableEq

/-- The per-user system state the state machine and ledger share: the user's
ledger slice and the at-most-one active game (§3, §5). -/
structure SysState where
  ledger : UserLedger
  activeGame : Option Game
deriving DecidableEq

/-- Modelled from the spec: game-layer error kinds (§7). -/
inductive GameErr where
  | insufficientBalance | invalidAction | invalidBet | activeGameExists
deriving DecidableEq

/-- Modelled from the spec: `deal(userId, betAmount)` requires betAmount > 0,
no active game, and debits the bet (kind BET) before dealing; on debit
failure it returns an insufficient-balance error and deals nothing (§4.2).
Two cards go to the player, two to the dealer; a natural player blackjack
moves directly toward settlement, otherwise the state is PLAYING.  The
shuffled fresh deck is passed in by the caller. -/
def deal (st : SysState) (gid : String) (bet : Nat) (deck : List Rank) :
    Except GameErr SysState :=
  if bet = 0 then .error .invalidBet
  else match st.activeGame with
  | some _ => .error .activeGameExists
  | none =>
    match ledgerDebit st.ledger bet .bet (some gid) with
    | .error _ => .error .insufficientBalance
    | .ok led =>
      let pCards := deck.take 2
      let dCards := (deck.drop 2).take 2
      let natural := isBlackjackB pCards
      .ok { ledger := led,
            activeGame := some
              { gameId := gid, userId := st.ledger.userId,
                deck := deck.drop 4, dealerCards := dCards,
                hands := [{ cards := pCards, bet := bet,
                            status := if natural then .blackjack else .active,
                            fromSplit := false }],
                state := if natural then .dealerTurn else .playing,
                insuranceTaken := false, insuranceBet := 0 } }

/-- Modelled from the spec: the player actions of `apply` (§4.2). -/
inductive Action where
  | hit | stand | doubleDown | split | surrender | insurance
deriving DecidableEq

/-- The currently-acting hand: the first unresolved hand, left to right (§4.2). -/
def activeHandIdx (hands : List Hand) : Option Nat :=
  hands.findIdx? (fun h => h.status == .active)

/-- All hands resolved (STOOD/BUSTED/SURRENDERED/BLACKJACK)? (§4.2) -/
def handsResolved (hands : List Hand) : Bool :=
  hands.all (fun h => h.status != .active)

/-- Once all hands are resolved the game transitions to DEALER_TURN (§4.2). -/
def advanceState (g : Game) : Game :=
  if handsResolved g.hands then { g with state := .dealerTurn } else g

/-- Modelled from the spec: `apply(gameId, action)` (§4.2).  Legal only while
the state is PLAYING and only for the currently-acting hand; any action
attempted out of its legal window returns an invalid-action error without
mutating state, and a debit failure during double_down, split or insurance
leaves the state unchanged.  The result pairs the (possibly unchanged)
state with the error, if any. -/
def applyAction (st : SysState) (a : Action) : SysState × Option GameErr :=
  match st.activeGame with
  | none => (st, some .invalidAction)
  | some g =>
    if g.state = .playing then
      match activeHandIdx g.hands with
      | none => (st, some .invalidAction)
      | some i =>
        match g.hands[i]? with
        | none => (st, some .invalidAction)
        | some h =>
          match a with
          | .hit =>
            match g.deck with
            | [] => (st, some .invalidAction)
            | c :: rest =>
              let cards := h.cards ++ [c]
              let h' := { h with cards := cards,
                                 status := if isBustB cards then .busted else .active }
              let g' := advanceState { g with deck := rest, hands := g.hands.set i h' }
              ({ st with activeGame := some g' }, none)
          | .stand =>
            let g' := advanceState { g with hands := g.hands.set i { h with status := .stood } }
            ({ st with activeGame := some g' }, none)
          | .doubleDown =>
            if h.cards.length = 2 then
              match g.deck with
              | [] => (st, some .invalidAction)
              | c :: rest =>
                match ledgerDebit st.ledger h.bet .bet (some g.gameId) with
                | .error _ => (st, some .insufficientBalance)
                | .ok led =>
                  let cards := h.cards ++ [c]
                  let h' := { h with cards := cards, bet := 2 * h.bet,
                                     status := if isBustB cards then .busted else .stood }
                  let g' := advanceState { g with deck := rest, hands := g.hands.set i h' }
                  ({ ledger := led, activeGame := some g' }, none)
            else (st, some .invalidAction)
          | .split =>
            match g.deck with
            | n1 :: n2 :: rest =>
              match h.cards with
              | [c1, c2] =>
                if c1 = c2 ∧ h.fromSplit = false then
                  match ledgerDebit st.ledger h.bet .bet (some g.gameId) with
                  | .error _ => (st, some .insufficientBalance)
                  | .ok led =>
                    let h1 : Hand := { cards := [c1, n1], bet := h.bet,
                                       status := .active, fromSplit := true }
                    let h2 : Hand := { cards := [c2, n2], bet := h.bet,
                                       status := .active, fromSplit := true }
                    let hands := g.hands.take i ++ [h1, h2] ++ g.hands.drop (i + 1)
                    ({ ledger := led,
                       activeGame := some { g with deck := rest, hands := hands } }, none)
                else (st, some .invalidAction)
              | _ => (st, some .invalidAction)
            | _ => (st, some .invalidAction)
          | .surrender =>
            if h.cards.length = 2 then
              let led := ledgerCredit st.ledger (h.bet / 2) .refund (some g.gameId)
              let g' := advanceState { g with hands := g.hands.set i { h with status := .surrendered } }
              ({ ledger := led, activeGame := some g' }, none)
            else (st, some .invalidAction)
          | .insurance =>
            if g.dealerCards.head? = some Rank.ace ∧ g.insuranceTaken = false
                ∧ g.hands.length = 1 ∧ h.cards.length = 2 then
              match ledgerDebit st.ledger (h.bet / 2) .bet (some g.gameId) with
              | .error _ => (st, some .insufficientBalance)
              | .ok led =>
                ({ ledger := led,
                   activeGame := some { g with insuranceTaken := true,
                                               insuranceBet := h.bet / 2 } }, none)
            else (st, some .invalidAction)
    else (st, some .invalidAction)

/-- Modelled from the spec: during DEALER_TURN the dealer draws while
`value(dealerHand) < 17` and stands on all 17s, hard or soft (§4.2). -/
def dealerPlay : List Rank → List Rank → List Rank
  | hand, [] => hand
  | hand, c :: rest =>
    if (handValue hand).1 < 17 then dealerPlay (hand ++ [c]) rest else hand

/-- Modelled from the spec: one settled-game record consumed by the History
Aggregator (§4.2, §4.4). -/
structure SettledGame where
  gameId : String
  userId : String
  resolution : Resolution
  betAmount : Nat
  payout : Nat
deriving DecidableEq

/-- Modelled from the spec: the `resultFilter` values of the History
Aggregator (§4.4). -/
inductive ResultFilter where
  | all | win | lose | push | blackjack
deriving DecidableEq

/-- Modelled from the spec: the blackjack filter matches hands resolved via
natural blackjack payout specifically, not a generic win (§4.4). -/
def matchesFilter (f : ResultFilter) (g : SettledGame) : Bool :=
  match f with
  | .all => true
  | .win => g.resolution == .win
  | .lose => g.resolution == .lose
  | .push => g.resolution == .push
  | .blackjack => g.resolution == .blackjackPayout

/-- Modelled from the spec: the full (unpaginated) result set of
`query(userId, resultFilter, ...)`: the settled-game set filtered by userId
and, if the filter is not `all`, by the hand's resolution outcome (§4.4). -/
def queryResultSet (games : List SettledGame) (uid : String)
    (f : ResultFilter) : List SettledGame :=
  (games.filter (fun g => g.userId == uid)).filter (matchesFilter f)

/-- Modelled from the spec: one page of `query`; pagination is 1-indexed and
`limit` bounds the page size (§4.4). -/
def queryPage (games : List SettledGame) (uid : String) (f : ResultFilter)
    (page limit : Nat) : List SettledGame :=
  ((queryResultSet games uid f).drop ((page - 1) * limit)).take limit

/-- A user record as returned by the wallet-authentication surface (§6). -/
structure UserRec where
  id : String
  walletAddress : String
  balance : Int
deriving DecidableEq

/-- Rollup statistics attached to the authentication response (§6). -/
structure UserStatsRec where
  gamesPlayed : Nat
  totalWinnings : Int
deriving DecidableEq

/-- The wallet-authentication response shape: success flag, user object and
stats object (§6). -/
structure AuthResponse where
  success : Bool
  user : UserRec
  stats : UserStatsRec
deriving DecidableEq

/-- Modelled from the spec: POST /api/auth/wallet.  Clients authenticate by
wallet address and receive or create a user record with a balance (§1);
wallet-signature verification is out of scope, treated as an external
collaborator (§1), so the endpoint accepts any well-formed payload and the
signature string is never consulted. -/
def authWallet (walletAddress sigValue : String) (users : List UserRec) :
    AuthResponse :=
  let user := match users.find? (fun u => u.walletAddress == walletAddress) with
    | some u => u
    | none => { id := walletAddress, walletAddress := walletAddress, balance := 0 }
  { success := true, user := user,
    stats := { gamesPlayed := 0, totalWinnings := 0 } }

/-- A concrete one-user ledger slice used as a test fixture. -/
def fixtureLedger (bal : Int) : UserLedger :=
  { userId := "u", balance := bal, txs := [] }

/-- A concrete mid-play game with a single active player hand, used as a
test fixture; the deck still holds three cards. -/
def fixtureGame (cs : List Rank) : Game :=
  { gameId := "g", userId := "u",
    deck := [Rank.five, Rank.nine, Rank.two],
    dealerCards := [Rank.ten, Rank.seven],
    hands := [{ cards := cs, bet := 10, status := .active, fromSplit := false }],
    state := .playing, insuranceTaken := false, insuranceBet := 0 }

/-! ## Hand evaluator: ace demotion -/

/-- Each rank's base value is its hard value plus 10 exactly on aces. -/
theorem rankBase_eq_hard (c : Rank) :
    rankBase c = rankHard c + (if c = Rank.ace then 10 else 0) := by
  cases c <;> rfl

/-- The all-aces-high sum decomposes into the hard sum plus 10 per ace. -/
theorem baseTotal_eq (cards : List Rank) :
    baseTotal cards = hardTotal cards + 10 * aceCount cards := by
  induction cards with
  | nil => rfl
  | cons c rest ih =>
    simp only [baseTotal, hardTotal, aceCount, ih, rankBase_eq_hard c]
    by_cases hc : c = Rank.ace <;> simp [hc] <;> ring

/-- Every card contributes at least 1 to the hard total, so the hard total
dominates the ace count. -/
theorem aceCount_le_hardTotal (cards : List Rank) :
    aceCount cards ≤ hardTotal cards := by
  induction cards with
  | nil => exact Nat.le_refl 0
  | cons c rest ih =>
    simp only [aceCount, hardTotal]
    have hc : 1 ≤ rankHard c := by cases c <;> simp [rankHard, rankBase]
    by_cases h : c = Rank.ace <;> simp [h, rankHard] at hc ⊢ <;> omega

/-- Closed form of the demotion loop: starting from the hard total plus 10
per ace, it keeps exactly one ace high when that fits under 21, and
otherwise demotes every ace. -/
theorem demoteAces_char (a h : Nat) (hle : a ≤ h) :
    demoteAces (h + 10 * a) a =
      if 0 < a ∧ h + 10 ≤ 21 then (h + 10, 1) else (h, 0) := by
  induction a with
  | zero => simp [demoteAces]
  | succ a ih =>
    have ha : a ≤ h := Nat.le_of_succ_le hle
    simp only [demoteAces]
    by_cases hbig : 21 < h + 10 * (a + 1)
    · have hsub : h + 10 * (a + 1) - 10 = h + 10 * a := by omega
      rw [if_pos hbig, hsub, ih ha]
      by_cases hz : 0 < a
      · by_cases hfit : h + 10 ≤ 21 <;> simp [hz, hfit] <;> omega
      · have haz : a = 0 := by omega
        subst haz
        have : ¬ (h + 10 ≤ 21) := by omega
        simp [this]
    · rw [if_neg hbig]
      have haz : a = 0 := by omega
      subst haz
      have hfit : h + 10 ≤ 21 := by omega
      simp [hfit]

/-- Closed form of `handValue`: the total is the hard total, raised by 10
when an ace fits, and the hand is soft exactly when an ace stays high. -/
theorem handValue_char (cards : List Rank) :
    handValue cards =
      (if 0 < aceCount cards ∧ hardTotal cards + 10 ≤ 21
         then hardTotal cards + 10 else hardTotal cards,
       decide (0 < aceCount cards ∧ hardTotal cards + 10 ≤ 21)) := by
  unfold handValue
  rw [baseTotal_eq, demoteAces_char (aceCount cards) (hardTotal cards)
    (aceCount_le_hardTotal cards)]
  by_cases hc : 0 < aceCount cards ∧ hardTotal cards + 10 ≤ 21
  · rw [if_pos hc, if_pos hc, decide_eq_true hc]
    simp
  · rw [if_neg hc, if_neg hc, decide_eq_false hc]
    simp

/-- Claim C2: `value(hand)` sums the card ranks treating each ace first as
11 and, while the total exceeds 21 and an ace is still counted as 11,
demotes one ace to 1; equivalently, the total is the hard total raised by 10
exactly when that does not bust, `isSoft` is true iff an ace remains counted
as 11, and in particular value of the hand A,6,6 is 13 (a hard hand), not
23.  As a Lean function over the card sequence, `handValue` is pure and
deterministic. -/
theorem hand_value_spec :
    (∀ cards : List Rank,
      handValue cards =
        (if 0 < aceCount cards ∧ hardTotal cards + 10 ≤ 21
           then hardTotal cards + 10 else hardTotal cards,
         decide (0 < aceCount cards ∧ hardTotal cards + 10 ≤ 21)))
    ∧ handValue [Rank.ace, Rank.six, Rank.six] = (13, false) := by
  refine ⟨handValue_char, ?_⟩
  decide

/-! ## Settlement -/

/-- Claim C1: settlement is total over player hands not already SURRENDERED
(`settleHand` is a total Lean function), and on every terminal shape the
resolution and credit match the documented ratios: player busted → LOSE,
credit 0; dealer busted (player neither bust nor natural) → WIN, credit
2× bet; player total higher (neither side bust, no player natural) → WIN,
credit 2× bet; natural player blackjack against a non-blackjack dealer →
3:2 payout, credit 5/2 × bet; both naturals → PUSH, credit 1× bet; equal
totals → PUSH, credit 1× bet; dealer higher → LOSE, credit 0. -/
theorem settle_matches_documented_ratios (h : Hand) (dealer : List Rank)
    (hns : h.status ≠ HandStatus.surrendered) :
    (isBustB h.cards = true → settleHand h dealer = (.lose, 0))
    ∧ (isBustB h.cards = false → isBlackjackB h.cards = false →
        isBustB dealer = true → settleHand h dealer = (.win, 2 * h.bet))
    ∧ (isBustB h.cards = false → isBlackjackB h.cards = false →
        isBustB dealer = false →
        (handValue dealer).1 < (handValue h.cards).1 →
        settleHand h dealer = (.win, 2 * h.bet))
    ∧ (isBlackjackB h.cards = true → isBlackjackB dealer = false →
        settleHand h dealer = (.blackjackPayout, h.bet * 5 / 2))
    ∧ (isBlackjackB h.cards = true → isBlackjackB dealer = true →
        settleHand h dealer = (.push, h.bet))
    ∧ (isBustB h.cards = false → isBlackjackB h.cards = false →
        isBustB dealer = false →
        (handValue h.cards).1 = (handValue dealer).1 →
        settleHand h dealer = (.push, h.bet))
    ∧ (isBustB h.cards = false → isBlackjackB h.cards = false →
        isBustB dealer = false →
        (handValue h.cards).1 < (handValue dealer).1 →
        settleHand h dealer = (.lose, 0)) := by
  refine ⟨?_, ?_, ?_, ?_, ?_, ?_, ?_⟩
  · intro hb
    simp [settleHand, hb]
  · intro hb hbj hdb
    simp [settleHand, hb, hbj, hdb]
  · intro hb hbj hdb hlt
    have hne : ¬ (handValue h.cards).1 = (handValue dealer).1 := by omega
    simp [settleHand, hb, hbj, hdb, hlt]
  · intro hbj hdbj
    have hb : isBustB h.cards = false := by
      simp only [isBlackjackB, Bool.and_eq_true, beq_iff_eq] at hbj
      simp [isBustB, hbj.2]
    simp [settleHand, hb, hbj, hdbj]
  · intro hbj hdbj
    have hb : isBustB h.cards = false := by
      simp only [isBlackjackB, Bool.and_eq_true, beq_iff_eq] at hbj
      simp [isBustB, hbj.2]
    simp [settleHand, hb, hbj, hdbj]
  · intro hb hbj hdb heq
    have hnlt : ¬ (handValue dealer).1 < (handValue h.cards).1 := by omega
    simp [settleHand, hb, hbj, hdb, hnlt, heq]
  · intro hb hbj hdb hlt
    have hnlt : ¬ (handValue dealer).1 < (handValue h.cards).1 := by omega
    have hne : ¬ (handValue h.cards).1 = (handValue dealer).1 := by omega
    simp [settleHand, hb, hbj, hdb, hnlt, hne]

/-- Witness for C1: a concrete push — a stood hand of two tens against a
dealer 20 settles as PUSH with the bet credited once. -/
theorem settle_matches_documented_ratios_witness :
    settleHand { cards := [Rank.ten, Rank.ten], bet := 10,
                 status := HandStatus.stood, fromSplit := false }
      [Rank.ten, Rank.jack] = (Resolution.push, 10) :=
  (settle_matches_documented_ratios
      { cards := [Rank.ten, Rank.ten], bet := 10,
        status := HandStatus.stood, fromSplit := false }
      [Rank.ten, Rank.jack] (by decide)).2.2.2.2.2.1
    (by decide) (by decide) (by decide) (by decide)

/-! ## Wallet ledger invariants -/

/-- Claim C3: starting from a non-negative balance, every committed ledger
operation leaves the balance non-negative and appends exactly one
Transaction, and a debit whose application would make the balance negative
returns `InsufficientBalanceError` (so no transaction is recorded for it). -/
theorem ledger_nonneg_and_single_append (st : UserLedger)
    (hpos : 0 ≤ st.balance) :
    (∀ (op : LedgerOp) (st' : UserLedger), ledgerApply st op = .ok st' →
        0 ≤ st'.balance ∧ st'.txs.length = st.txs.length + 1)
    ∧ (∀ (a : Nat) (k : TxKind) (g : Option String), st.balance < (a : Int) →
        ledgerApply st (.debit a k g) = .error .insufficientBalance) := by
  constructor
  · intro op st' hok
    cases op with
    | debit a k g =>
      simp only [ledgerApply, ledgerDebit] at hok
      by_cases hlt : st.balance < (a : Int)
      · simp [hlt] at hok
      · simp [hlt] at hok
        subst hok
        constructor
        · simp; omega
        · simp
    | credit a k g =>
      simp only [ledgerApply] at hok
      cases hok
      constructor
      · simp [ledgerCredit]; omega
      · simp [ledgerCredit]
    | adjust a =>
      simp only [ledgerApply] at hok
      cases hok
      constructor
      · simp only [ledgerAdjust]
        have : -st.balance ≤ max a (-st.balance) := le_max_right a (-st.balance)
        simp; omega
      · simp [ledgerAdjust]
  · intro a k g hlt
    simp [ledgerApply, ledgerDebit, hlt]

/-- Witness for C3: on a balance of 10, a debit of 20 is rejected with an
insufficient-balance error. -/
theorem ledger_nonneg_and_single_append_witness :
    ledgerApply { userId := "u", balance := 10, txs := [] }
      (.debit 20 .bet none) = .error .insufficientBalance :=
  (ledger_nonneg_and_single_append
      { userId := "u", balance := 10, txs := [] } (by decide)).2
    20 .bet none (by decide)

/-! ## Dealing -/

/-- Claim C4: for a single `deal(userId, betAmount)` call with betAmount > 0,
betAmount ≤ balance and no active game, the call succeeds, the balance
afterwards equals the balance before minus the bet, exactly one BET
transaction is appended, and a game is created; when instead the bet exceeds
the balance, the call returns an insufficient-balance error (an `Except`
error carries no state, so nothing is dealt and nothing is debited). -/
theorem deal_debits_exactly_once (st : SysState) (gid : String) (bet : Nat)
    (deck : List Rank) (hactive : st.activeGame = none) (hbet : 0 < bet) :
    ((bet : Int) ≤ st.ledger.balance →
      ∃ st', deal st gid bet deck = .ok st'
        ∧ st'.ledger.balance = st.ledger.balance - (bet : Int)
        ∧ st'.ledger.txs.length = st.ledger.txs.length + 1
        ∧ st'.activeGame.isSome = true)
    ∧ (st.ledger.balance < (bet : Int) →
        deal st gid bet deck = .error .insufficientBalance) := by
  have hne : ¬ bet = 0 := by omega
  constructor
  · intro hle
    have hnlt : ¬ st.ledger.balance < (bet : Int) := by omega
    cases hd : deal st gid bet deck with
    | error e =>
      rw [deal] at hd
      simp [hne, hactive, ledgerDebit, hnlt] at hd
    | ok st' =>
      rw [deal] at hd
      simp [hne, hactive, ledgerDebit, hnlt] at hd
      refine ⟨st', rfl, ?_, ?_, ?_⟩ <;> rw [← hd] <;> simp
  · intro hlt
    simp [deal, hne, hactive, ledgerDebit, hlt]

/-- Witness for C4: a bet of 10 on a balance of 100 with no active game
succeeds and leaves balance 90 with one appended transaction. -/
theorem deal_debits_exactly_once_witness :
    ∃ st', deal { ledger := { userId := "u", balance := 100, txs := [] },
                  activeGame := none } "g1" 10
             [Rank.five, Rank.nine, Rank.seven, Rank.king, Rank.two]
        = .ok st'
      ∧ st'.ledger.balance = (100 : Int) - (10 : Nat)
      ∧ st'.ledger.txs.length = 0 + 1
      ∧ st'.activeGame.isSome = true :=
  (deal_debits_exactly_once
      { ledger := { userId := "u", balance := 100, txs := [] },
        activeGame := none } "g1" 10
      [Rank.five, Rank.nine, Rank.seven, Rank.king, Rank.two]
      rfl (by decide)).1 (by decide)

/-! ## Action atomicity -/

/-- Claim C5: every failing action is atomic — whenever `apply` reports an
error (an action outside its legal window, or a debit failure inside
double_down, split or insurance), the returned system state is exactly the
input state: no game-state mutation and no ledger mutation is committed. -/
theorem apply_error_atomic (st : SysState) (a : Action)
    (herr : ((applyAction st a).2).isSome = true) :
    (applyAction st a).1 = st := by
  unfold applyAction at herr ⊢
  repeat' split at herr
  all_goals repeat' split
  all_goals simp_all

/-- Witness for C5: with a pair of eights, a bet of 100 and a balance of 40,
`split` fails its extra debit and the state is returned unchanged. -/
theorem apply_error_atomic_witness :
    (applyAction
        { ledger := { userId := "u", balance := 40, txs := [] },
          activeGame := some
            { gameId := "g", userId := "u",
              deck := [Rank.five, Rank.nine, Rank.two],
              dealerCards := [Rank.ten, Rank.seven],
              hands := [{ cards := [Rank.eight, Rank.eight], bet := 100,
                          status := HandStatus.active, fromSplit := false }],
              state := GameState.playing,
              insuranceTaken := false, insuranceBet := 0 } }
        Action.split).1
      = { ledger := { userId := "u", balance := 40, txs := [] },
          activeGame := some
            { gameId := "g", userId := "u",
              deck := [Rank.five, Rank.nine, Rank.two],
              dealerCards := [Rank.ten, Rank.seven],
              hands := [{ cards := [Rank.eight, Rank.eight], bet := 100,
                          status := HandStatus.active, fromSplit := false }],
              state := GameState.playing,
              insuranceTaken := false, insuranceBet := 0 } } :=
  apply_error_atomic
    { ledger := { userId := "u", balance := 40, txs := [] },
      activeGame := some
        { gameId := "g", userId := "u",
          deck := [Rank.five, Rank.nine, Rank.two],
          dealerCards := [Rank.ten, Rank.seven],
          hands := [{ cards := [Rank.eight, Rank.eight], bet := 100,
                      status := HandStatus.active, fromSplit := false }],
          state := GameState.playing,
          insuranceTaken := false, insuranceBet := 0 } }
    Action.split (by decide)

/-! ## Split legality -/

/-- Claim C6: while PLAYING, `split` on the currently-acting hand succeeds
iff the hand is an unsplit first-action hand of exactly two equal-rank cards
and the additional debit equal to the original bet fits the balance; in
particular a pair of eights is legal, an 8–9 hand returns InvalidAction, and
a three-card hand returns InvalidAction. -/
theorem split_legal_iff :
    (∀ (led : UserLedger) (g : Game) (i : Nat) (h : Hand),
      g.state = GameState.playing →
      activeHandIdx g.hands = some i →
      g.hands[i]? = some h →
      2 ≤ g.deck.length →
      ((applyAction { ledger := led, activeGame := some g } Action.split).2 = none ↔
        (∃ c, h.cards = [c, c]) ∧ h.fromSplit = false
          ∧ (h.bet : Int) ≤ led.balance))
    ∧ (applyAction { ledger := fixtureLedger 100,
                     activeGame := some (fixtureGame [Rank.eight, Rank.eight]) }
        Action.split).2 = none
    ∧ (applyAction { ledger := fixtureLedger 100,
                     activeGame := some (fixtureGame [Rank.eight, Rank.nine]) }
        Action.split).2 = some .invalidAction
    ∧ (applyAction { ledger := fixtureLedger 100,
                     activeGame := some (fixtureGame [Rank.eight, Rank.eight, Rank.three]) }
        Action.split).2 = some .invalidAction := by
  refine ⟨?_, by decide, by decide, by decide⟩
  intro led g i h hstate hidx hh hdeck
  obtain ⟨n1, n2, rest, hdk⟩ : ∃ n1 n2 rest, g.deck = n1 :: n2 :: rest := by
    rcases hdx : g.deck with _ | ⟨a, _ | ⟨b, r⟩⟩
    · rw [hdx] at hdeck; simp at hdeck
    · rw [hdx] at hdeck; simp at hdeck
    · exact ⟨a, b, r, rfl⟩
  simp only [applyAction, hstate, hidx, hh, hdk, if_pos]
  rcases hc : h.cards with _ | ⟨c1, _ | ⟨c2, _ | ⟨c3, t⟩⟩⟩
  · simp [hc]
  · simp [hc]
  · by_cases hc12 : c1 = c2
    · subst hc12
      by_cases hfs : h.fromSplit = false
      · by_cases hbal : led.balance < (h.bet : Int)
        · simp [ledgerDebit, hbal, hfs]
        · simp [ledgerDebit, hbal, hfs]
          omega
      · simp [hfs]
    · simp [hc12]
      intro he
      exact absurd he.symm hc12
  · simp [hc]

/-- Witness for C6: the iff applied to the pair-of-eights fixture — the
split succeeds. -/
theorem split_legal_iff_witness :
    (applyAction { ledger := fixtureLedger 100,
                   activeGame := some (fixtureGame [Rank.eight, Rank.eight]) }
      Action.split).2 = none :=
  (split_legal_iff.1 (fixtureLedger 100)
      (fixtureGame [Rank.eight, Rank.eight]) 0
      { cards := [Rank.eight, Rank.eight], bet := 10,
        status := .active, fromSplit := false }
      rfl rfl rfl (by decide)).mpr
    ⟨⟨Rank.eight, rfl⟩, rfl, by decide⟩

/-! ## Dealer rule -/

/-- The dealer stands, leaving the hand unchanged, on every total of 17 or
more — hard or soft, since only the computed total is consulted. -/
theorem dealerPlay_stands (hand : List Rank) (h17 : 17 ≤ (handValue hand).1) :
    ∀ deck : List Rank, dealerPlay hand deck = hand := by
  intro deck
  cases deck with
  | nil => rfl
  | cons c rest =>
    have : ¬ (handValue hand).1 < 17 := by omega
    simp [dealerPlay, this]

/-- Claim C7: under the fixed dealer rule, the dealer draws while
`value(dealerHand) < 17` and stands on every total of 17 or more, hard or
soft: a hand valued 16 draws the next card, a hand valued 17 stands; in
particular the soft 17 A–6 stands. -/
theorem dealer_draws_under_17_stands_on_17 (hand deck rest : List Rank)
    (c : Rank) :
    ((handValue hand).1 < 17 →
      dealerPlay hand (c :: rest) = dealerPlay (hand ++ [c]) rest)
    ∧ (17 ≤ (handValue hand).1 → dealerPlay hand deck = hand)
    ∧ ((handValue hand).1 = 16 →
      dealerPlay hand (c :: rest) = dealerPlay (hand ++ [c]) rest)
    ∧ dealerPlay [Rank.ace, Rank.six] deck = [Rank.ace, Rank.six]
    ∧ dealerPlay [Rank.ten, Rank.seven] deck = [Rank.ten, Rank.seven] := by
  refine ⟨?_, ?_, ?_, ?_, ?_⟩
  · intro hlt
    simp [dealerPlay, hlt]
  · intro h17
    exact dealerPlay_stands hand h17 deck
  · intro h16
    have hlt : (handValue hand).1 < 17 := by omega
    simp [dealerPlay, hlt]
  · exact dealerPlay_stands [Rank.ace, Rank.six] (by decide) deck
  · exact dealerPlay_stands [Rank.ten, Rank.seven] (by decide) deck

/-- Witness for C7: a dealer 16 (ten–six) draws the offered five, reaching
ten–six–five. -/
theorem dealer_draws_under_17_stands_on_17_witness :
    dealerPlay [Rank.ten, Rank.six] [Rank.five] =
      dealerPlay [Rank.ten, Rank.six, Rank.five] [] :=
  (dealer_draws_under_17_stands_on_17 [Rank.ten, Rank.six] [] []
      Rank.five).2.2.1 (by decide)

/-! ## History filtering -/

/-- Concatenating the four outcome filters of a settled-game list permutes
the list itself: every record lands in exactly one outcome bucket. -/
theorem filter_outcomes_perm (l : List SettledGame) :
    List.Perm
      (l.filter (matchesFilter .win) ++
        (l.filter (matchesFilter .lose) ++
          (l.filter (matchesFilter .push) ++
            l.filter (matchesFilter .blackjack)))) l := by
  induction l with
  | nil => simp
  | cons g rest ih =>
    cases hres : g.resolution <;>
      simp only [List.filter_cons, matchesFilter, hres] <;> simp
    · exact ih
    · exact List.Perm.trans List.perm_middle (ih.cons g)
    · exact (List.Perm.append_left _ List.perm_middle).trans
        (List.perm_middle.trans (ih.cons g))
    · exact (List.Perm.append_left _ (List.Perm.append_left _ List.perm_middle)).trans
        ((List.Perm.append_left _ List.perm_middle).trans
          (List.perm_middle.trans (ih.cons g)))

/-- Claim C8: history filtering is a partition — for every settled-game set
and user, concatenating the `win`, `lose`, `push` and `blackjack` result
sets is a permutation of the `all` result set (same records, no duplicates
introduced), and the `blackjack` filter matches exactly the hands resolved
via natural blackjack payout while the `win` filter matches exactly the
generic wins. -/
theorem history_filter_partition (games : List SettledGame) (uid : String) :
    List.Perm
      (queryResultSet games uid .win ++
        (queryResultSet games uid .lose ++
          (queryResultSet games uid .push ++
            queryResultSet games uid .blackjack)))
      (queryResultSet games uid .all)
    ∧ (∀ g : SettledGame,
        matchesFilter .blackjack g = (g.resolution == .blackjackPayout))
    ∧ (∀ g : SettledGame, matchesFilter .win g = (g.resolution == .win)) := by
  refine ⟨?_, fun g => rfl, fun g => rfl⟩
  unfold queryResultSet
  have hall : (games.filter (fun g => g.userId == uid)).filter
      (matchesFilter .all) = games.filter (fun g => g.userId == uid) := by
    simp [matchesFilter]
  rw [hall]
  exact filter_outcomes_perm (games.filter (fun g => g.userId == uid))

/-! ## Wallet authentication -/

/-- Claim C10: POST /api/auth/wallet with any wallet address and any
signature string succeeds — the response has `success = true` and carries a
user object and a stats object — and the signature is never consulted: the
response is identical for any two signature strings. -/
theorem auth_wallet_ignores_signature
    (addr s1 s2 : String) (users : List UserRec) :
    (authWallet addr s1 users).success = true
    ∧ authWallet addr s1 users = authWallet addr s2 users
    ∧ (authWallet addr s1 users).user.walletAddress = addr := by
  refine ⟨rfl, rfl, ?_⟩
  unfold authWallet
  cases hf : users.find? (fun u => u.walletAddress == addr) with
  | none => simp
  | some u =>
    simp only
    have := List.find?_some hf
    simpa using this

end MetaBlackjack
